import Mathlib

/-!
Verification of `examples/bots/python_bot.py` from the
`telegram-webapp-sdk` repository.

The script defines two Telegram handlers and a `main` entry point:

* `start` builds a two-button inline keyboard whose buttons open the
  WebApp URL at the fragments `#/burger-king` and `#/init-data`;
* `handle_web_app_data` parses the JSON payload sent by the WebApp,
  extracts `id` / `name` / `price_cents` with defaults, formats a
  confirmation reply and a log line, and recovers from two kinds of
  failures (`json.JSONDecodeError` and any other `Exception`);
* `main` checks the CLI arguments, stores the WebApp URL in the
  process-wide `bot_data` configuration and starts polling.

The embedding below models Python values flowing through the handler as
a `Json` inductive (Python's `json.loads` produces `None`, `bool`,
`int`, `str`, `list` and `dict` values; only integer numerals appear in
this demo, so numbers are modelled as `Int`).  Python exceptions are
modelled with `Except PyErr`; the bot framework's I/O (sending a reply,
printing) is modelled by collecting the produced strings.  `json.loads`
itself is Python standard-library code, so the handler is modelled on
the outcome of the parse: `Except JSONDecodeError Json`.

The script's `price_cents / 100` is Python float division: the
embedding models it bit-faithfully as the IEEE-754 round-to-nearest,
ties-to-even double of the exact quotient — a sign bit plus mantissa
and exponent (`PyFloat`, built by `trueDivCents`), including the
`OverflowError` past the double range — and `f"{x:.2f}"` as the
correctly rounded two-decimal rendering of that double (`format2f`).
All of it is plain `Nat`/`Int` arithmetic, so concrete runs reduce in
the kernel; `doubleCents` states the double's exact rational value for
the error-bound lemmas.
-/

set_option maxRecDepth 4000

/-- A Python value produced by `json.loads` (plus `None`, which also
arises as the default of `dict.get`).  JSON numbers are modelled as
integers: the demo's payloads (`price_cents`, `id`) are integral. -/
inductive Json where
  | null
  | bool (b : Bool)
  | num (n : Int)
  | str (s : String)
  | arr (xs : List Json)
  | obj (fields : List (String × Json))
deriving Repr

/-- The Python type name of a value, as it appears in exception
messages (`type(x).__name__`). -/
def Json.typeName : Json → String
  | .null => "NoneType"
  | .bool _ => "bool"
  | .num _ => "int"
  | .str _ => "str"
  | .arr _ => "list"
  | .obj _ => "dict"

/-- A Python exception other than `json.JSONDecodeError`, carrying the
text that `str(e)` yields. -/
structure PyErr where
  msg : String
deriving DecidableEq, Repr

/-- A failed `json.loads`: the `json.JSONDecodeError` branch.  The
error's contents are irrelevant to the handler, which replies with a
fixed message. -/
structure JSONDecodeError where
  dummy : Unit := ()

mutual
/-- Python `repr` of a value, as used when a container is rendered
inside an f-string (string escaping inside `repr` is not modelled; no
claim depends on it). -/
def pyRepr : Json → String
  | .null => "None"
  | .bool b => if b then "True" else "False"
  | .num n => toString n
  | .str s => "'" ++ s ++ "'"
  | .arr xs => "[" ++ pyReprList xs ++ "]"
  | .obj fs => "\x7b" ++ pyReprFields fs ++ "\x7d"

/-- Comma-separated `repr` of list elements. -/
def pyReprList : List Json → String
  | [] => ""
  | [x] => pyRepr x
  | x :: xs => pyRepr x ++ ", " ++ pyReprList xs

/-- Comma-separated `repr` of dict entries. -/
def pyReprFields : List (String × Json) → String
  | [] => ""
  | [(k, v)] => "'" ++ k ++ "': " ++ pyRepr v
  | (k, v) :: fs => "'" ++ k ++ "': " ++ pyRepr v ++ ", " ++ pyReprFields fs
end

/-- Python `str()` of a value, as used by f-string interpolation:
identical to `repr` except that a string renders without quotes. -/
def pyStr : Json → String
  | .str s => s
  | j => pyRepr j

/-- Python `data.get(key, default)` on a value that may not be a dict:
on a dict it returns the first binding for `key` or the default; on any
other value, attribute lookup of `get` raises `AttributeError`. -/
def Json.get : Json → String → Json → Except PyErr Json
  | .obj fields, key, dflt => .ok ((fields.lookup key).getD dflt)
  | j, _, _ =>
      .error ⟨"'" ++ j.typeName ++ "' object has no attribute 'get'"⟩

/-- Fuelled floor of `log2`: structurally recursive so that concrete
instances reduce inside the kernel (`Nat.log2` itself is defined by
well-founded recursion and does not). -/
def log2floor (fuel n : Nat) : Nat :=
  match fuel with
  | 0 => 0
  | fuel + 1 => if n < 2 then 0 else log2floor fuel (n / 2) + 1

/-- Round `num / den` to the nearest integer, ties to even: the
rounding CPython applies both when dividing two `int`s into a double
(`long_true_divide` computes the correctly rounded quotient) and when
formatting a double with `%.2f` (the conversion is correctly rounded
via `_Py_dg_dtoa`). -/
def roundHalfEvenNat (num den : Nat) : Nat :=
  if 2 * (num % den) < den then num / den
  else if den < 2 * (num % den) then num / den + 1
  else if num / den % 2 = 0 then num / den else num / den + 1

/-- Floor of `log2 (n / 100)` for `n ≥ 1`: the binary exponent of the
quotient `n / 100`, computed by scaling `n` into integer range first
(`n / 100 ≥ 2 ^ (-7)` always, so seven extra bits suffice). -/
def centExp (n : Nat) : Int :=
  (log2floor (n * 128 / 100) (n * 128 / 100) : Int) - 7

/-- The 53-bit significand of the IEEE-754 double nearest to
`n / 100`: the quotient scaled to `[2 ^ 52, 2 ^ 53]` and rounded half
to even. -/
def centMantissa (n : Nat) : Nat :=
  if centExp n ≤ 52 then roundHalfEvenNat (n * 2 ^ (52 - centExp n).toNat) 100
  else roundHalfEvenNat n (100 * 2 ^ (centExp n - 52).toNat)

/-- An IEEE-754 double as produced by `p / 100`: a sign bit and the
rounded magnitude `mant * 2 ^ (exp - 52)` with `mant ∈ [2 ^ 52, 2 ^ 53]`
(or `mant = 0`). -/
structure PyFloat where
  neg : Bool
  mant : Nat
  exp : Int
deriving DecidableEq, Repr

/-- Whether the rounded magnitude `m * 2 ^ (e - 52)` reaches
`2 ^ 1024`, the end of the double range — CPython's overflow check on
the result exponent.  With `m ≤ 2 ^ 53` the value reaches `2 ^ 1024`
exactly when `e ≥ 1024`, or `e = 1023` with the mantissa carried out
to `2 ^ 53`. -/
def overflows (m : Nat) (e : Int) : Bool :=
  if e < 1023 then false
  else if 1023 < e then true
  else 2 ^ 53 ≤ m

/-- CPython `int.__truediv__` for `p / 100`: the correctly rounded
double of the exact quotient, or `OverflowError` when the rounded
magnitude reaches `2 ^ 1024`. -/
def trueDivCents (p : Int) : Except PyErr PyFloat :=
  if overflows (centMantissa p.natAbs) (centExp p.natAbs) then
    .error ⟨"integer division result too large for a float"⟩
  else .ok ⟨decide (p < 0), centMantissa p.natAbs, centExp p.natAbs⟩

/-- The `price_cents / 100` step on a Json value: Python's `/` accepts
`int` and `bool` (a subclass of `int`) and raises `TypeError` on every
other operand type appearing here. -/
def divisionCents : Json → Except PyErr PyFloat
  | .num n => trueDivCents n
  | .bool b => trueDivCents (if b then 1 else 0)
  | j =>
      .error ⟨"unsupported operand type(s) for /: '" ++ j.typeName
        ++ "' and 'int'"⟩

/-- Two-digit rendering of a remainder `0 ≤ n < 100`. -/
def pad2 (n : Nat) : String :=
  if n < 10 then "0" ++ toString n else toString n

/-- Python `f"{x:.2f}"` on a double `x`: the sign, then the exact
decimal value `100 * x.mant * 2 ^ (x.exp - 52)` of `100 * |x|` rounded
half to even to an integer count of cents and rendered with two
decimal places. -/
def format2f (x : PyFloat) : String :=
  let N := if x.exp ≤ 52 then
      roundHalfEvenNat (100 * x.mant) (2 ^ (52 - x.exp).toNat)
    else 100 * x.mant * 2 ^ (x.exp - 52).toNat
  (if x.neg then "-" else "") ++ toString (N / 100) ++ "." ++ pad2 (N % 100)

/-- The display asserted by the spec: `price_cents` divided by `100`
and rendered with exactly two decimal places, computed exactly.  The
program computes `f"{price_cents / 100:.2f}"` in IEEE double precision
instead; the C1 theorems compare the two. -/
def specPriceDisplay (p : Int) : String :=
  (if p < 0 then "-" else "")
    ++ toString (p.natAbs / 100) ++ "." ++ pad2 (p.natAbs % 100)

/-- The exact rational value of the double `p / 100` computes (used in
proofs only; `ℚ` does not reduce inside the kernel). -/
def doubleCents (n : Nat) : ℚ :=
  (centMantissa n : ℚ) * (2 : ℚ) ^ (centExp n - 52)

/-- The confirmation text built by `handle_web_app_data` from the
already-interpolated item name, price and order id. -/
def mkResponse (item_name price item_id : String) : String :=
  "✅ Order Received!\n\n"
    ++ "Item: " ++ item_name ++ "\n"
    ++ "Price: $" ++ price ++ "\n"
    ++ "Order ID: #" ++ item_id ++ "\n\n"
    ++ "Your order is being processed..."

/-- The `[Order]` log line printed on success. -/
def mkOrderLog (userId : Int) (item_name price : String) : String :=
  "[Order] User " ++ toString userId ++ " ordered: " ++ item_name
    ++ " ($" ++ price ++ ")"

/-- The body of the `try` block after `json.loads` succeeded: field
extraction, price computation and message/log formatting.  Returns the
reply text and the log line, or the Python exception raised. -/
def processOrder (data : Json) (userId : Int) :
    Except PyErr (String × String) := do
  let item_id ← data.get "id" Json.null
  let item_name ← data.get "name" (Json.str "Unknown")
  let price_cents ← data.get "price_cents" (Json.num 0)
  let price_dollars ← divisionCents price_cents
  let price := format2f price_dollars
  let response := mkResponse (pyStr item_name) price (pyStr item_id)
  let log := mkOrderLog userId (pyStr item_name) price
  return (response, log)

/-- What an invocation of the payload handler sends and prints. -/
structure HandlerResult where
  replies : List String
  logs : List String
deriving DecidableEq, Repr

/-- The fixed reply of the `json.JSONDecodeError` branch. -/
def parseErrorReply : String := "❌ Error: Could not parse order data."

/-- The handler `handle_web_app_data`, modelled on the outcome of
`json.loads(update.message.web_app_data.data)`.  The handler returns
normally in every case: the two `except` branches absorb every failure
of the body, so no exception propagates out of the handler. -/
def handle_web_app_data (parsed : Except JSONDecodeError Json)
    (userId : Int) : HandlerResult :=
  match parsed with
  | .error _ => ⟨[parseErrorReply], []⟩
  | .ok data =>
      match processOrder data userId with
      | .ok (response, log) => ⟨[response], [log]⟩
      | .error e =>
          ⟨["❌ Error processing order: " ++ e.msg], ["[Error] " ++ e.msg]⟩

/-- One inline-keyboard button: a label and the WebApp URL it opens. -/
structure Button where
  label : String
  url : String
deriving DecidableEq, Repr

/-- The message sent by the `start` handler: text plus keyboard rows. -/
structure StartMessage where
  text : String
  keyboard : List (List Button)
deriving DecidableEq, Repr

/-- The `start` command handler: picks the WebApp URL from the first
command argument if present, else from the `bot_data` configuration,
else the hardcoded placeholder, and sends a two-button keyboard. -/
def start (args : List String) (bot_data : List (String × String)) :
    StartMessage :=
  let webapp_url :=
    if h : args.length < 1 then
      (bot_data.lookup "webapp_url").getD "https://example.com"
    else
      args.get ⟨0, by omega⟩
  { text := "Welcome to the Telegram WebApp SDK Demo!\n\n"
      ++ "Click a button below to open the WebApp:"
    keyboard :=
      [[⟨"Open Burger King Menu", webapp_url ++ "#/burger-king"⟩],
       [⟨"View Init Data", webapp_url ++ "#/init-data"⟩]] }

/-- The URLs of the keyboard's buttons, row by row. -/
def buttonUrls (m : StartMessage) : List String :=
  (m.keyboard.map (fun row => row.map Button.url)).flatten

/-- The application state `main` assembles before polling: the bot
token and the process-wide `bot_data` configuration. -/
structure AppState where
  token : String
  bot_data : List (String × String)
deriving DecidableEq, Repr

/-- The observable outcome of `main`: either the usage message is
printed and the process exits with the given status code (no
application is constructed), or the application is built and polling
starts, with the lines printed on the way. -/
inductive MainOutcome where
  | exit (printed : List String) (code : Nat)
  | run (app : AppState) (printed : List String)
deriving DecidableEq, Repr

/-- The entry point `main`: with fewer than two `sys.argv` entries, print the usage
line and exit with status 1; otherwise take the token from `argv[1]`,
the WebApp URL from `argv[2]` or the placeholder, store it under
`"webapp_url"` in `bot_data` and run polling.  (Named `pyMain`
because `main` is reserved by Lean for the executable entry point.) -/
def pyMain (argv : List String) : MainOutcome :=
  if argv.length < 2 then
    .exit ["Usage: python python_bot.py YOUR_BOT_TOKEN [WEBAPP_URL]"] 1
  else
    let bot_token := argv.getD 1 ""
    let webapp_url :=
      if h : 2 < argv.length then argv.get ⟨2, h⟩ else "https://example.com"
    .run ⟨bot_token, [("webapp_url", webapp_url)]⟩
      ["Starting bot with WebApp URL: " ++ webapp_url,
       "Bot is running... Press Ctrl+C to stop."]

/-- The string `pat` occurs as a contiguous substring of `s`. -/
def containsStr (s pat : String) : Prop :=
  pat.data <:+: s.data

instance (s pat : String) : Decidable (containsStr s pat) :=
  inferInstanceAs (Decidable (pat.data <:+: s.data))

/-! ## Helper lemmas -/

/-- The response text displays the item name after `"Item: "`. -/
theorem mkResponse_contains_name (n p i : String) :
    containsStr (mkResponse n p i) n := by
  refine ⟨("✅ Order Received!\n\nItem: ").data,
    ("\nPrice: $" ++ p ++ "\nOrder ID: #" ++ i
      ++ "\n\nYour order is being processed...").data, ?_⟩
  simp [mkResponse, String.data_append]

/-- The response text renders the order id after `"Order ID: #"`. -/
theorem mkResponse_contains_id (n p i : String) :
    containsStr (mkResponse n p i) ("Order ID: #" ++ i) := by
  refine ⟨("✅ Order Received!\n\nItem: " ++ n ++ "\nPrice: $" ++ p ++ "\n").data,
    ("\n\nYour order is being processed...").data, ?_⟩
  simp [mkResponse, String.data_append]

/-- The fuelled binary logarithm agrees with `Nat.log2` whenever the
fuel covers the argument. -/
theorem log2floor_eq (fuel n : Nat) (h : n ≤ fuel) : log2floor fuel n = Nat.log2 n := by
  induction fuel generalizing n with
  | zero =>
      have hn : n = 0 := by omega
      subst hn
      rw [Nat.log2]
      rfl
  | succ f ih =>
      rw [log2floor, Nat.log2]
      by_cases h2 : n < 2
      · rw [if_pos h2, if_neg (by omega)]
      · rw [if_neg h2, if_pos (by omega), ih (n / 2) (by omega)]

/-- Half-even rounding moves the fraction by at most half a unit. -/
theorem roundHalfEvenNat_bounds (num den : Nat) (h : den ≠ 0) :
    2 * (roundHalfEvenNat num den * den) ≤ 2 * num + den ∧
    2 * num ≤ 2 * (roundHalfEvenNat num den * den) + den := by
  have hlt : num % den < den := Nat.mod_lt _ (Nat.pos_of_ne_zero h)
  have hdm2 : num / den * den + num % den = num := Nat.div_add_mod' num den
  unfold roundHalfEvenNat
  split_ifs <;> constructor <;>
    (first
      | (generalize num / den * den = A at hdm2 ⊢
         omega)
      | (simp only [Nat.add_mul, one_mul]
         generalize num / den * den = A at hdm2 ⊢
         omega))

/-- Half-even rounding is within `1 / 2` of the exact fraction. -/
theorem roundHalfEvenNat_close (num den : Nat) (h : den ≠ 0) :
    |(roundHalfEvenNat num den : ℚ) - (num : ℚ) / (den : ℚ)| ≤ 1 / 2 := by
  obtain ⟨h1, h2⟩ := roundHalfEvenNat_bounds num den h
  have hden0 : (0 : ℚ) < (den : ℚ) := by
    exact_mod_cast Nat.pos_of_ne_zero h
  have c1 : 2 * ((roundHalfEvenNat num den : ℚ) * den) ≤ 2 * num + den := by
    exact_mod_cast h1
  have c2 : (2 * num : ℚ) ≤ 2 * ((roundHalfEvenNat num den : ℚ) * den) + den := by
    exact_mod_cast h2
  rw [abs_sub_le_iff]
  have key1 : (roundHalfEvenNat num den : ℚ) - num / den =
      ((roundHalfEvenNat num den : ℚ) * den - num) / den := by
    field_simp
    try ring
  have key2 : (num : ℚ) / den - roundHalfEvenNat num den =
      ((num : ℚ) - roundHalfEvenNat num den * den) / den := by
    field_simp
    try ring
  constructor
  · rw [key1, div_le_iff₀ hden0]
    linarith
  · rw [key2, div_le_iff₀ hden0]
    linarith

/-- Within the claim's bound the quotient's binary exponent is small. -/
theorem centExp_le (n : Nat) (hb : n ≤ 2 ^ 51) : centExp n ≤ 45 := by
  unfold centExp
  rw [log2floor_eq _ _ le_rfl]
  have hy : n * 128 / 100 < 2 ^ 53 := by
    have h1 : n * 128 / 100 ≤ 2 ^ 51 * 128 / 100 :=
      Nat.div_le_div_right (Nat.mul_le_mul_right _ hb)
    omega
  have hlog : Nat.log2 (n * 128 / 100) ≤ 52 := by
    rcases Nat.eq_zero_or_pos (n * 128 / 100) with h0 | hpos
    · simp [h0]
    · have := (Nat.log2_lt (Nat.pos_iff_ne_zero.mp hpos)).mpr hy
      omega
  omega

/-- The rounded double is within half an ulp of the exact quotient. -/
theorem doubleCents_close (n : Nat) :
    |doubleCents n - (n : ℚ) / 100| ≤ (2 : ℚ) ^ (centExp n - 53) := by
  unfold doubleCents centMantissa
  split_ifs with hle
  · set s := (52 - centExp n).toNat with hs
    have hse : (s : Int) = 52 - centExp n := Int.toNat_of_nonneg (by omega)
    have hc := roundHalfEvenNat_close (n * 2 ^ s) 100 (by norm_num)
    have hpow : (0 : ℚ) < (2 : ℚ) ^ s := by positivity
    have hrw : (roundHalfEvenNat (n * 2 ^ s) 100 : ℚ) * (2 : ℚ) ^ (centExp n - 52)
          - (n : ℚ) / 100 =
        ((2 : ℚ) ^ s)⁻¹ *
          ((roundHalfEvenNat (n * 2 ^ s) 100 : ℚ) - ((n * 2 ^ s : Nat) : ℚ) / 100) := by
      have hz : (2 : ℚ) ^ (centExp n - 52) = ((2 : ℚ) ^ s)⁻¹ := by
        rw [← zpow_natCast (2 : ℚ) s, ← zpow_neg]
        congr 1
        omega
      rw [hz]
      push_cast
      field_simp
      ring
    rw [hrw, abs_mul, abs_of_pos (inv_pos.mpr hpow)]
    have hz53 : (2 : ℚ) ^ (centExp n - 53) = ((2 : ℚ) ^ s)⁻¹ * (1 / 2) := by
      rw [← zpow_natCast (2 : ℚ) s, ← zpow_neg, one_div,
        (by norm_num : (2 : ℚ)⁻¹ = (2 : ℚ) ^ (-1 : Int)), ← zpow_add₀ (by norm_num : (2 : ℚ) ≠ 0)]
      congr 1
      omega
    rw [hz53]
    exact mul_le_mul_of_nonneg_left hc (le_of_lt (inv_pos.mpr hpow))
  · set t := (centExp n - 52).toNat with ht
    have hte : (t : Int) = centExp n - 52 := Int.toNat_of_nonneg (by omega)
    have hc := roundHalfEvenNat_close n (100 * 2 ^ t) (by positivity)
    have hpow : (0 : ℚ) < (2 : ℚ) ^ t := by positivity
    have hrw : (roundHalfEvenNat n (100 * 2 ^ t) : ℚ) * (2 : ℚ) ^ (centExp n - 52)
          - (n : ℚ) / 100 =
        (2 : ℚ) ^ t *
          ((roundHalfEvenNat n (100 * 2 ^ t) : ℚ) - (n : ℚ) / ((100 * 2 ^ t : Nat) : ℚ)) := by
      have hz : (2 : ℚ) ^ (centExp n - 52) = (2 : ℚ) ^ t := by
        rw [← zpow_natCast (2 : ℚ) t]
        congr 1
        omega
      rw [hz]
      push_cast
      field_simp
      ring
    rw [hrw, abs_mul, abs_of_pos hpow]
    have hz53 : (2 : ℚ) ^ (centExp n - 53) = (2 : ℚ) ^ t * (1 / 2) := by
      rw [← zpow_natCast (2 : ℚ) t, one_div,
        (by norm_num : (2 : ℚ)⁻¹ = (2 : ℚ) ^ (-1 : Int)), ← zpow_add₀ (by norm_num : (2 : ℚ) ≠ 0)]
      congr 1
      omega
    rw [hz53]
    exact mul_le_mul_of_nonneg_left hc (le_of_lt hpow)

/-- Below the bound the exponent stays far from the double range's
end, so the division does not overflow. -/
theorem trueDivCents_ok (p : Int) (hb : p.natAbs ≤ 2 ^ 51) :
    trueDivCents p =
      .ok ⟨decide (p < 0), centMantissa p.natAbs, centExp p.natAbs⟩ := by
  have he := centExp_le p.natAbs hb
  have hov : overflows (centMantissa p.natAbs) (centExp p.natAbs) = false := by
    unfold overflows
    rw [if_pos (by omega : centExp p.natAbs < 1023)]
  unfold trueDivCents
  rw [hov]
  rfl

/-- Within the bound, `%.2f` applied to the rounded double prints the
exact two-decimal rendering of `p / 100`. -/
theorem format2f_ofCents (p : Int) (hb : p.natAbs ≤ 2 ^ 51) :
    format2f ⟨decide (p < 0), centMantissa p.natAbs, centExp p.natAbs⟩ =
      specPriceDisplay p := by
  have he := centExp_le p.natAbs hb
  have hclose := doubleCents_close p.natAbs
  have herr : |100 * doubleCents p.natAbs - (p.natAbs : ℚ)| < 1 / 2 := by
    have hsc : 100 * |doubleCents p.natAbs - (p.natAbs : ℚ) / 100| =
        |100 * doubleCents p.natAbs - (p.natAbs : ℚ)| := by
      rw [show (100 : ℚ) * doubleCents p.natAbs - (p.natAbs : ℚ) =
          100 * (doubleCents p.natAbs - (p.natAbs : ℚ) / 100) by ring,
        abs_mul, abs_of_pos (show (0 : ℚ) < 100 by norm_num)]
    have hpow : (2 : ℚ) ^ (centExp p.natAbs - 53) ≤ (2 : ℚ) ^ (-8 : Int) :=
      zpow_le_zpow_right₀ one_le_two (by omega)
    have h8 : (2 : ℚ) ^ (-8 : Int) = 1 / 256 := by norm_num
    rw [← hsc]
    nlinarith [hclose, hpow.trans_eq h8,
      abs_nonneg (doubleCents p.natAbs - (p.natAbs : ℚ) / 100)]
  have hm : roundHalfEvenNat (100 * centMantissa p.natAbs)
      (2 ^ (52 - centExp p.natAbs).toNat) = p.natAbs := by
    set s := (52 - centExp p.natAbs).toNat with hs
    have hse : (s : Int) = 52 - centExp p.natAbs := Int.toNat_of_nonneg (by omega)
    have hden : (2 ^ s : Nat) ≠ 0 := by positivity
    have hc := roundHalfEvenNat_close (100 * centMantissa p.natAbs) (2 ^ s) hden
    have hval : ((100 * centMantissa p.natAbs : ℕ) : ℚ) / ((2 ^ s : ℕ) : ℚ) =
        100 * doubleCents p.natAbs := by
      unfold doubleCents
      have hz : (2 : ℚ) ^ (centExp p.natAbs - 52) = ((2 : ℚ) ^ s)⁻¹ := by
        rw [← zpow_natCast (2 : ℚ) s, ← zpow_neg]
        congr 1
        omega
      rw [hz]
      push_cast
      field_simp
      try ring
    rw [hval] at hc
    have hnear : |(roundHalfEvenNat (100 * centMantissa p.natAbs) (2 ^ s) : ℚ) -
        (p.natAbs : ℚ)| < 1 := by
      calc |(roundHalfEvenNat (100 * centMantissa p.natAbs) (2 ^ s) : ℚ) -
            (p.natAbs : ℚ)|
          ≤ |(roundHalfEvenNat (100 * centMantissa p.natAbs) (2 ^ s) : ℚ) -
              100 * doubleCents p.natAbs| +
            |100 * doubleCents p.natAbs - (p.natAbs : ℚ)| := abs_sub_le _ _ _
        _ < 1 := by linarith [hc, herr]
    have hint : |(roundHalfEvenNat (100 * centMantissa p.natAbs) (2 ^ s) : ℤ) -
        (p.natAbs : ℤ)| < 1 := by
      exact_mod_cast hnear
    rw [abs_lt] at hint
    omega
  show (if (decide (p < 0) : Bool) then "-" else "")
      ++ toString ((if centExp p.natAbs ≤ 52 then
            roundHalfEvenNat (100 * centMantissa p.natAbs)
              (2 ^ (52 - centExp p.natAbs).toNat)
          else 100 * centMantissa p.natAbs * 2 ^ (centExp p.natAbs - 52).toNat) / 100)
      ++ "."
      ++ pad2 ((if centExp p.natAbs ≤ 52 then
            roundHalfEvenNat (100 * centMantissa p.natAbs)
              (2 ^ (52 - centExp p.natAbs).toNat)
          else 100 * centMantissa p.natAbs * 2 ^ (centExp p.natAbs - 52).toNat) % 100)
      = specPriceDisplay p
  rw [if_pos (by omega : centExp p.natAbs ≤ 52), hm]
  unfold specPriceDisplay
  by_cases hp : p < 0 <;> simp [hp]

/-- On a plain JSON object, `processOrder` succeeds and produces the
response and log built from the three extracted fields. -/
theorem processOrder_obj (fields : List (String × Json)) (u : Int) (d : PyFloat)
    (hprice : divisionCents ((fields.lookup "price_cents").getD (.num 0)) = .ok d) :
    processOrder (.obj fields) u =
      .ok (mkResponse (pyStr ((fields.lookup "name").getD (.str "Unknown")))
             (format2f d)
             (pyStr ((fields.lookup "id").getD .null)),
           mkOrderLog u
             (pyStr ((fields.lookup "name").getD (.str "Unknown")))
             (format2f d)) := by
  simp [processOrder, Json.get, bind, Except.bind, Functor.map, Except.map, pure, Except.pure, hprice]

/-! ## Claims -/

/-- C1 counterexample: at `price_cents = 2 ^ 53 + 1` the IEEE double
division shifts the displayed cents: the program shows
`$90071992547409.94`, while `price_cents / 100` formatted exactly to
two decimal places is `90071992547409.93`. -/
theorem C1_counterexample :
    handle_web_app_data (.ok (.obj [("price_cents", .num 9007199254740993)])) 0 =
      ⟨[mkResponse "Unknown" "90071992547409.94" "None"],
       [mkOrderLog 0 "Unknown" "90071992547409.94"]⟩ ∧
    specPriceDisplay 9007199254740993 = "90071992547409.93" ∧
    ("90071992547409.94" : String) ≠ "90071992547409.93" :=
  ⟨rfl, rfl, by decide⟩

/-- C1 (amended): for every payload parsing to a JSON object whose
`price_cents` field is an integer with `|price_cents| ≤ 2 ^ 51` (or
absent, in which case it defaults to `0`), the reply displays the
price `price_cents / 100` rendered with exactly two decimal places,
and the log line shows the same price. -/
theorem C1_price_display (fields : List (String × Json)) (u p : Int)
    (h : fields.lookup "price_cents" = some (Json.num p) ∨
         (fields.lookup "price_cents" = none ∧ p = 0))
    (hb : p.natAbs ≤ 2 ^ 51) :
    handle_web_app_data (.ok (.obj fields)) u =
      ⟨[mkResponse (pyStr ((fields.lookup "name").getD (.str "Unknown")))
          (specPriceDisplay p)
          (pyStr ((fields.lookup "id").getD .null))],
       [mkOrderLog u
          (pyStr ((fields.lookup "name").getD (.str "Unknown")))
          (specPriceDisplay p)]⟩ := by
  have hdiv : divisionCents ((fields.lookup "price_cents").getD (.num 0)) =
      .ok ⟨decide (p < 0), centMantissa p.natAbs, centExp p.natAbs⟩ := by
    rcases h with h | ⟨h, rfl⟩
    · simp [h, divisionCents, trueDivCents_ok p hb]
    · simp [h, divisionCents, trueDivCents_ok 0 hb]
  simp [handle_web_app_data,
    processOrder_obj fields u ⟨decide (p < 0), centMantissa p.natAbs, centExp p.natAbs⟩ hdiv,
    format2f_ofCents p hb]

/-- C1 witness: the payload `{"price_cents": 599}` yields the reply
with price `$5.99` (and default name and id). -/
theorem C1_price_display_witness :
    handle_web_app_data (.ok (.obj [("price_cents", .num 599)])) 7 =
      ⟨[mkResponse "Unknown" "5.99" "None"], [mkOrderLog 7 "Unknown" "5.99"]⟩ :=
  C1_price_display [("price_cents", .num 599)] 7 599 (Or.inl rfl) (by decide)

/-- C2: whenever `json.loads` fails, the handler replies with exactly
the fixed parse-error message and prints nothing. -/
theorem C2_parse_error (e : JSONDecodeError) (u : Int) :
    handle_web_app_data (.error e) u =
      ⟨["❌ Error: Could not parse order data."], []⟩ := rfl

/-- C3: whenever the body raises any exception other than a JSON parse
failure, the handler replies with a message embedding the exception's
text, prints one log line, and returns normally (it is a total
function, so no failure propagates out of it). -/
theorem C3_generic_exception (data : Json) (u : Int) (e : PyErr)
    (h : processOrder data u = .error e) :
    handle_web_app_data (.ok data) u =
      ⟨["❌ Error processing order: " ++ e.msg], ["[Error] " ++ e.msg]⟩ := by
  simp [handle_web_app_data, h]

/-- C3 witness: a non-dict payload (`5`) raises `AttributeError`, and
the handler reports it and logs it. -/
theorem C3_generic_exception_witness :
    processOrder (Json.num 5) 0 =
      .error ⟨"'int' object has no attribute 'get'"⟩ ∧
    handle_web_app_data (.ok (Json.num 5)) 0 =
      ⟨["❌ Error processing order: 'int' object has no attribute 'get'"],
       ["[Error] 'int' object has no attribute 'get'"]⟩ :=
  ⟨rfl, C3_generic_exception (Json.num 5) 0 ⟨"'int' object has no attribute 'get'"⟩ rfl⟩

/-- C4: the WebApp base URL is the first command argument when one is
given, else the configured `bot_data` default, else the placeholder
`https://example.com`; the message carries exactly the two buttons
whose URLs append `#/burger-king` and `#/init-data` to that base.  In
particular the bare case produces the two placeholder URLs. -/
theorem C4_start_url_fallback (args : List String)
    (bot_data : List (String × String)) :
    buttonUrls (start args bot_data) =
      [(match args with
        | [] => (bot_data.lookup "webapp_url").getD "https://example.com"
        | a :: _ => a) ++ "#/burger-king",
       (match args with
        | [] => (bot_data.lookup "webapp_url").getD "https://example.com"
        | a :: _ => a) ++ "#/init-data"] ∧
    buttonUrls (start [] []) =
      ["https://example.com#/burger-king", "https://example.com#/init-data"] := by
  constructor
  · cases args <;> simp [start, buttonUrls]
  · rfl

/-- C5: the demo payload `{"id": 1, "name": "Whopper", "price_cents":
599}` produces a single reply containing `"Whopper"`, `"$5.99"` and
`"#1"`. -/
theorem C5_whopper (u : Int) :
    (handle_web_app_data (.ok (.obj [("id", .num 1), ("name", .str "Whopper"),
        ("price_cents", .num 599)])) u).replies =
      ["✅ Order Received!\n\nItem: Whopper\nPrice: $5.99\nOrder ID: #1\n\nYour order is being processed..."] ∧
    containsStr "✅ Order Received!\n\nItem: Whopper\nPrice: $5.99\nOrder ID: #1\n\nYour order is being processed..." "Whopper" ∧
    containsStr "✅ Order Received!\n\nItem: Whopper\nPrice: $5.99\nOrder ID: #1\n\nYour order is being processed..." "$5.99" ∧
    containsStr "✅ Order Received!\n\nItem: Whopper\nPrice: $5.99\nOrder ID: #1\n\nYour order is being processed..." "#1" :=
  ⟨rfl, by decide, by decide, by decide⟩

/-- C6 counterexample: the payload `{"price_cents": "oops"}` parses as
a JSON object lacking `name`, yet the division raises `TypeError`, so
the reply is the generic error message, which does not contain
`"Unknown"`. -/
theorem C6_counterexample :
    List.lookup "name" [("price_cents", Json.str "oops")] = (none : Option Json) ∧
    (handle_web_app_data (.ok (.obj [("price_cents", Json.str "oops")])) 0).replies =
      ["❌ Error processing order: unsupported operand type(s) for /: 'str' and 'int'"] ∧
    ¬ containsStr
        "❌ Error processing order: unsupported operand type(s) for /: 'str' and 'int'"
        "Unknown" :=
  ⟨rfl, rfl, by decide⟩

/-- C6 (amended): for every payload parsing to a JSON object lacking
`name` whose processing succeeds (its `price_cents`, if present,
divides by `100` without raising), the reply contains `"Unknown"`. -/
theorem C6_unknown_name (fields : List (String × Json)) (u : Int) (d : PyFloat)
    (hname : fields.lookup "name" = none)
    (hprice : divisionCents ((fields.lookup "price_cents").getD (.num 0)) = .ok d) :
    (handle_web_app_data (.ok (.obj fields)) u).replies =
      [mkResponse "Unknown" (format2f d)
        (pyStr ((fields.lookup "id").getD .null))] ∧
    containsStr
      (mkResponse "Unknown" (format2f d)
        (pyStr ((fields.lookup "id").getD .null)))
      "Unknown" := by
  constructor
  · simp [handle_web_app_data, processOrder_obj fields u d hprice, hname, pyStr]
  · exact mkResponse_contains_name _ _ _

/-- C6 witness: the payload `{"id": 2}` lacks `name` and processes
successfully, and its reply contains `"Unknown"`. -/
theorem C6_unknown_name_witness :
    (handle_web_app_data (.ok (.obj [("id", Json.num 2)])) 3).replies =
      [mkResponse "Unknown" "0.00" "2"] ∧
    containsStr (mkResponse "Unknown" "0.00" "2") "Unknown" := by
  have hp : divisionCents ((List.lookup "price_cents"
      [("id", Json.num 2)]).getD (.num 0)) = .ok ⟨false, 0, -7⟩ := rfl
  have hfmt : format2f ⟨false, 0, -7⟩ = "0.00" := rfl
  have hid : pyStr ((List.lookup "id" [("id", Json.num 2)]).getD Json.null) =
    "2" := rfl
  have h := C6_unknown_name [("id", Json.num 2)] 3 ⟨false, 0, -7⟩ rfl hp
  rw [hfmt, hid] at h
  exact h

/-- C8: a payload that is valid JSON but not an object makes the `get`
attribute lookup raise `AttributeError`, so the handler sends the
generic error reply embedding the exception's text and prints one log
line; that reply differs from the fixed parse-error message. -/
theorem C8_non_object_payload (j : Json) (u : Int)
    (h : ∀ fields, j ≠ Json.obj fields) :
    handle_web_app_data (.ok j) u =
      ⟨["❌ Error processing order: '" ++ j.typeName
          ++ "' object has no attribute 'get'"],
       ["[Error] '" ++ j.typeName ++ "' object has no attribute 'get'"]⟩ ∧
    "❌ Error processing order: '" ++ j.typeName
        ++ "' object has no attribute 'get'" ≠ parseErrorReply := by
  cases j with
  | obj fields => exact absurd rfl (h fields)
  | null => exact ⟨rfl, by decide⟩
  | bool b => cases b <;> exact ⟨rfl, by decide⟩
  | num n =>
      refine ⟨rfl, ?_⟩
      show "❌ Error processing order: '" ++ "int"
          ++ "' object has no attribute 'get'" ≠ parseErrorReply
      decide
  | str s =>
      refine ⟨rfl, ?_⟩
      show "❌ Error processing order: '" ++ "str"
          ++ "' object has no attribute 'get'" ≠ parseErrorReply
      decide
  | arr xs =>
      refine ⟨rfl, ?_⟩
      show "❌ Error processing order: '" ++ "list"
          ++ "' object has no attribute 'get'" ≠ parseErrorReply
      decide

/-- C8 witness: the payload `[]` (a JSON array) yields the generic
`AttributeError` reply and log, not the parse-error reply. -/
theorem C8_non_object_payload_witness :
    handle_web_app_data (.ok (Json.arr [])) 1 =
      ⟨["❌ Error processing order: 'list' object has no attribute 'get'"],
       ["[Error] 'list' object has no attribute 'get'"]⟩ ∧
    "❌ Error processing order: 'list' object has no attribute 'get'"
      ≠ parseErrorReply :=
  C8_non_object_payload (Json.arr []) 1 (fun _ h => Json.noConfusion h)

/-- C10 counterexample: the payload `{"price_cents": []}` parses as a
JSON object lacking `id`, yet the division raises `TypeError`, so the
reply is the generic error message, which does not contain
`"Order ID: #None"`. -/
theorem C10_counterexample :
    List.lookup "id" [("price_cents", Json.arr [])] = (none : Option Json) ∧
    (handle_web_app_data (.ok (.obj [("price_cents", Json.arr [])])) 0).replies =
      ["❌ Error processing order: unsupported operand type(s) for /: 'list' and 'int'"] ∧
    ¬ containsStr
        "❌ Error processing order: unsupported operand type(s) for /: 'list' and 'int'"
        "Order ID: #None" :=
  ⟨rfl, rfl, by decide⟩

/-- C10 (amended): for every payload parsing to a JSON object lacking
`id` whose processing succeeds (its `price_cents`, if present, divides
by `100` without raising), the extracted identifier defaults to `None`
and the reply contains the literal text `"Order ID: #None"`. -/
theorem C10_default_id (fields : List (String × Json)) (u : Int) (d : PyFloat)
    (hid : fields.lookup "id" = none)
    (hprice : divisionCents ((fields.lookup "price_cents").getD (.num 0)) = .ok d) :
    (handle_web_app_data (.ok (.obj fields)) u).replies =
      [mkResponse (pyStr ((fields.lookup "name").getD (.str "Unknown")))
        (format2f d) "None"] ∧
    containsStr
      (mkResponse (pyStr ((fields.lookup "name").getD (.str "Unknown")))
        (format2f d) "None")
      "Order ID: #None" := by
  constructor
  · simp [handle_web_app_data, processOrder_obj fields u d hprice, hid, pyStr, pyRepr]
  · exact mkResponse_contains_id _ _ "None"

/-- C10 witness: the payload `{"name": "Tea"}` lacks `id` and processes
successfully, and its reply contains `"Order ID: #None"`. -/
theorem C10_default_id_witness :
    (handle_web_app_data (.ok (.obj [("name", Json.str "Tea")])) 4).replies =
      [mkResponse "Tea" "0.00" "None"] ∧
    containsStr (mkResponse "Tea" "0.00" "None") "Order ID: #None" := by
  have hp : divisionCents ((List.lookup "price_cents"
      [("name", Json.str "Tea")]).getD (.num 0)) = .ok ⟨false, 0, -7⟩ := rfl
  have hfmt : format2f ⟨false, 0, -7⟩ = "0.00" := rfl
  have hname : pyStr ((List.lookup "name"
      [("name", Json.str "Tea")]).getD (.str "Unknown")) = "Tea" := rfl
  have h := C10_default_id [("name", Json.str "Tea")] 4 ⟨false, 0, -7⟩ rfl hp
  rw [hfmt, hname] at h
  exact h

/-- C7: with fewer than two command-line arguments, `main` prints the
usage line and exits with status 1; the `exit` outcome carries no
application state, so no bot is constructed or run. -/
theorem C7_missing_token (argv : List String) (h : argv.length < 2) :
    pyMain argv =
      .exit ["Usage: python python_bot.py YOUR_BOT_TOKEN [WEBAPP_URL]"] 1 := by
  simp [pyMain, h]

/-- C7 witness: launching with only the program name exits with the
usage message and status 1. -/
theorem C7_missing_token_witness :
    List.length ["python_bot.py"] < 2 ∧
    pyMain ["python_bot.py"] =
      .exit ["Usage: python python_bot.py YOUR_BOT_TOKEN [WEBAPP_URL]"] 1 :=
  ⟨by decide, C7_missing_token ["python_bot.py"] (by decide)⟩

/-- The WebApp URL selected by `main` once the token check passed. -/
theorem pyMain_url_eq_getD (argv : List String) :
    (if h : 2 < argv.length then argv.get ⟨2, h⟩ else "https://example.com") =
      argv.getD 2 "https://example.com" := by
  split
  · next hlt => simp [List.getD, List.getElem?_eq_getElem hlt]
  · next hge =>
      simp [List.getD, List.getElem?_eq_none (by omega : argv.length ≤ 2)]

/-- C9: whenever `main` reaches the polling stage, `bot_data` maps
`"webapp_url"` to the second CLI argument or `"https://example.com"`,
so the `start` handler invoked without arguments reads that stored
value and its hardcoded fallback never decides the URL. -/
theorem C9_webapp_url_configured (argv : List String) (app : AppState)
    (printed : List String) (h : pyMain argv = .run app printed) :
    app.bot_data.lookup "webapp_url" =
      some (argv.getD 2 "https://example.com") ∧
    buttonUrls (start [] app.bot_data) =
      [argv.getD 2 "https://example.com" ++ "#/burger-king",
       argv.getD 2 "https://example.com" ++ "#/init-data"] := by
  unfold pyMain at h
  split at h
  · exact absurd h (by simp)
  · injection h with h1 h2
    subst h1
    rw [← pyMain_url_eq_getD argv]
    exact ⟨rfl, rfl⟩

/-- C9 witness: launching with a token and an explicit URL stores that
URL in `bot_data`, and the no-argument `start` handler uses it. -/
theorem C9_webapp_url_configured_witness :
    (AppState.mk "TOKEN" [("webapp_url", "https://my.app")]).bot_data.lookup
        "webapp_url" =
      some (["python_bot.py", "TOKEN", "https://my.app"].getD 2
        "https://example.com") ∧
    buttonUrls (start []
        (AppState.mk "TOKEN" [("webapp_url", "https://my.app")]).bot_data) =
      [["python_bot.py", "TOKEN", "https://my.app"].getD 2 "https://example.com"
         ++ "#/burger-king",
       ["python_bot.py", "TOKEN", "https://my.app"].getD 2 "https://example.com"
         ++ "#/init-data"] :=
  C9_webapp_url_configured ["python_bot.py", "TOKEN", "https://my.app"]
    (AppState.mk "TOKEN" [("webapp_url", "https://my.app")])
    ["Starting bot with WebApp URL: https://my.app",
     "Bot is running... Press Ctrl+C to stop."] rfl
